import Mathlib

/-!
Shallow embedding of `aws9man` (`src/main.rs`), an AWS Health event
reporting CLI. Timestamps (`chrono::DateTime<Utc>` and
`aws_smithy_types::DateTime`) are modelled as `Int` milliseconds since the
Unix epoch, matching the precision the program itself exchanges with the
API (`timestamp_millis` / `DateTime::from_millis`). The AWS SDK client is
modelled as a record of call functions returning `Except`, mirroring the
`Result`-returning async calls; `eprintln!` diagnostics are modelled as an
explicit list of emitted warning lines.
-/

namespace Aws9man

/-- Milliseconds in one day; `chrono::Duration::days(10)` is `10 * msPerDay`. -/
def msPerDay : Int := 86400000

/-- Proleptic-Gregorian leap year test (as used by `chrono::NaiveDate`). -/
def isLeapYear (y : Int) : Bool :=
  y % 4 == 0 && (y % 100 != 0 || y % 400 == 0)

/-- Number of days in month `m` of year `y` (1-based month). -/
def daysInMonth (y m : Int) : Int :=
  if m == 2 then (if isLeapYear y then 29 else 28)
  else if m == 4 || m == 6 || m == 9 || m == 11 then 30
  else 31

/-- Days since 1970-01-01 of the civil date `y-m-d`
(Howard Hinnant's `days_from_civil`, the algorithm underlying
`chrono`'s date-to-epoch conversion). -/
def daysFromCivil (y m d : Int) : Int :=
  let y2 := y - (if m ≤ 2 then 1 else 0)
  let era := Int.fdiv y2 400
  let yoe := y2 - era * 400
  let mp := m + (if m > 2 then -3 else 9)
  let doy := Int.fdiv (153 * mp + 2) 5 + d - 1
  let doe := yoe * 365 + Int.fdiv yoe 4 - Int.fdiv yoe 100 + doy
  era * 146097 + doe - 719468

/-- Civil date `(y, m, d)` of a day count since 1970-01-01
(Hinnant's `civil_from_days`). -/
def civilFromDays (z0 : Int) : Int × Int × Int :=
  let z := z0 + 719468
  let era := Int.fdiv z 146097
  let doe := z - era * 146097
  let yoe := Int.fdiv (doe - Int.fdiv doe 1460 + Int.fdiv doe 36524 - Int.fdiv doe 146096) 365
  let y := yoe + era * 400
  let doy := doe - (365 * yoe + Int.fdiv yoe 4 - Int.fdiv yoe 100)
  let mp := Int.fdiv (5 * doy + 2) 153
  let d := doy - Int.fdiv (153 * mp + 2) 5 + 1
  let m := mp + (if mp < 10 then 3 else -9)
  (y + (if m ≤ 2 then 1 else 0), m, d)

/-- Midnight UTC of the civil date `y-m-d`, in epoch milliseconds.
This is the value of `Utc.from_utc_datetime(&date.and_hms_opt(0,0,0).unwrap())`
(line 129 of `main.rs`) converted to `timestamp_millis`. -/
def midnightUtcMs (y m d : Int) : Int :=
  daysFromCivil y m d * msPerDay

/-! ### Model of `chrono::NaiveDate::parse_from_str(date_str, "%Y-%m-%d")`

`chrono`'s numeric parse items trim leading whitespace, then read digits
greedily: `%Y` reads at most 4 digits when unsigned, or a sign followed by
arbitrarily many digits; `%m` and `%d` read at most 2 digits. The literal
`-` items must match exactly, the whole input must be consumed, and the
assembled `y-m-d` must be a valid calendar date with the year inside
`chrono`'s supported range `[-262144, 262143]`. -/

/-- Take at most `n` leading ASCII digits from `cs`. -/
def takeUpToDigits : Nat → List Char → List Char × List Char
  | 0, cs => ([], cs)
  | _ + 1, [] => ([], [])
  | n + 1, c :: cs =>
    if c.isDigit then
      let (tk, rest) := takeUpToDigits n cs
      (c :: tk, rest)
    else ([], c :: cs)

/-- Numeric value of a list of ASCII digits. -/
def digitsVal (cs : List Char) : Nat :=
  cs.foldl (fun a c => a * 10 + (c.toNat - 48)) 0

/-- Drop leading whitespace, as `chrono` does before each numeric item. -/
def skipWs (cs : List Char) : List Char :=
  cs.dropWhile Char.isWhitespace

/-- Parse an unsigned number of at most `maxW` digits (at least one digit). -/
def parseNum (maxW : Nat) (cs : List Char) : Option (Nat × List Char) :=
  let (tk, rest) := takeUpToDigits maxW cs
  if tk.isEmpty then none else some (digitsVal tk, rest)

/-- Parse the `%Y` item: optional whitespace, then either a sign followed by
arbitrarily many digits, or at most 4 digits. -/
def parseYearField (cs0 : List Char) : Option (Int × List Char) :=
  let cs := skipWs cs0
  match cs with
  | '-' :: rest =>
    (parseNum rest.length rest).map (fun (v, r) => (-(v : Int), r))
  | '+' :: rest =>
    (parseNum rest.length rest).map (fun (v, r) => ((v : Int), r))
  | _ =>
    (parseNum 4 cs).map (fun (v, r) => ((v : Int), r))

/-- Parse a `%m` or `%d` item: optional whitespace, then at most 2 digits. -/
def parseNum2 (cs0 : List Char) : Option (Nat × List Char) :=
  parseNum 2 (skipWs cs0)

/-- Match one literal character. -/
def expectChar (c : Char) : List Char → Option (List Char)
  | [] => none
  | x :: rest => if x == c then some rest else none

/-- `y-m-d` is a valid `chrono::NaiveDate`. -/
def validYmd (y m d : Int) : Bool :=
  -262144 ≤ y && y ≤ 262143 && 1 ≤ m && m ≤ 12 && 1 ≤ d && d ≤ daysInMonth y m

/-- Model of `NaiveDate::parse_from_str(s, "%Y-%m-%d")`:
`some (y, m, d)` on success, `none` on any parse or validity failure
(including trailing input, which `chrono` rejects as `TOO_LONG`). -/
def parseYMD (s : String) : Option (Int × Int × Int) := do
  let (y, r1) ← parseYearField s.toList
  let r2 ← expectChar '-' r1
  let (m, r3) ← parseNum2 r2
  let r4 ← expectChar '-' r3
  let (d, r5) ← parseNum2 r4
  if r5.isEmpty && validYmd y (m : Int) (d : Int) then
    some (y, (m : Int), (d : Int))
  else
    none

/-! ### `parse_date_string` and the time-window resolution in `main` -/

/-- The warning line `eprintln!`-ed by `parse_date_string` on parse failure. -/
def warnMsg (dateStr : String) : String :=
  "Warning: Could not parse date '" ++ dateStr ++ "'. Using default."

/-- Model of `parse_date_string` (lines 127-138 of `main.rs`): the
`Result<DateTime<Utc>, Error>` value paired with the list of warning lines
written to stderr. On parse success the result is midnight UTC of the
parsed date; on failure it is `Ok(default)` plus one warning. -/
def parse_date_string (dateStr : String) (default : Int) :
    Except String Int × List String :=
  match parseYMD dateStr with
  | some (y, m, d) => (.ok (midnightUtcMs y m d), [])
  | none => (.ok default, [warnMsg dateStr])

/-- Command-line arguments (struct `Args`, all optional). -/
structure Args where
  from_utc : Option String
  to_utc : Option String
  region : Option String

/-- Model of lines 42-54 of `main.rs`: default bounds are `end = now`,
`start = now - 10 days` from a single clock reading; each provided date
string goes through `parse_date_string` with the `?` operator, the start
bound first. Returns the resolved `(start_date, end_date)` and the
warnings emitted. -/
def resolveWindow (args : Args) (now : Int) :
    Except String (Int × Int) × List String :=
  let end_time := now
  let start_time := end_time - 10 * msPerDay
  match args.from_utc with
  | some s =>
    match parse_date_string s start_time with
    | (.error e, w1) => (.error e, w1)
    | (.ok start_date, w1) =>
      match args.to_utc with
      | some t =>
        match parse_date_string t end_time with
        | (.error e, w2) => (.error e, w1 ++ w2)
        | (.ok end_date, w2) => (.ok (start_date, end_date), w1 ++ w2)
      | none => (.ok (start_date, end_time), w1)
  | none =>
    match args.to_utc with
    | some t =>
      match parse_date_string t end_time with
      | (.error e, w2) => (.error e, w2)
      | (.ok end_date, w2) => (.ok (start_time, end_date), w2)
    | none => (.ok (start_time, end_time), [])

/-! ### CSV filename (line 83 of `main.rs`) -/

/-- Left-pad a numeral with zeros to width `w` (chrono zero-padded items). -/
def padZeros (w : Nat) (s : String) : String :=
  if s.length < w then String.mk (List.replicate (w - s.length) '0') ++ s else s

/-- `chrono` `"%Y%m%d"` rendering of a civil date (years `0..9999`,
the range every run-time clock date falls in). -/
def formatYYYYMMDD : Int × Int × Int → String
  | (y, m, d) =>
    padZeros 4 y.toNat.repr ++ padZeros 2 m.toNat.repr ++ padZeros 2 d.toNat.repr

/-- Model of `format!("{}_aws_health.csv", Utc::now().format("%Y%m%d"))`:
the CSV filename computed from the clock reading (epoch ms) taken at
line 83, independent of the event window. -/
def csvFilename (now : Int) : String :=
  formatYYYYMMDD (civilFromDays (Int.fdiv now msPerDay)) ++ "_aws_health.csv"

/-! ### The AWS Health client and `get_health_events` -/

/-- One event of the `describe_events` response
(`aws_sdk_health::types::Event`): the fields the program reads. -/
structure ApiEvent where
  arn : Option String
  startTime : Option Int

/-- `describe_events` response: the `events()` list. -/
structure DescribeEventsResponse where
  events : List ApiEvent

/-- `EventDescription`: the `latest_description()` field. -/
structure EventDescription where
  latestDescription : Option String

/-- One entry of the `successful_set()` of a `describe_event_details`
response (`EventDetails`): the `event_description()` field. -/
structure EventDetails where
  eventDescription : Option EventDescription

/-- `describe_event_details` response: the `successful_set()` list. -/
structure EventDetailsResponse where
  successfulSet : List EventDetails

/-- One entry of the `entities()` of a `describe_affected_entities`
response (`AffectedEntity`): the `entity_value()` field. -/
structure AffectedEntity where
  entityValue : Option String

/-- `describe_affected_entities` response: the `entities()` list. -/
structure AffectedEntitiesResponse where
  entities : List AffectedEntity

/-- The event filter passed to `describe_events` (lines 151-165):
region plus the start-time range in epoch milliseconds. -/
structure EventFilter where
  region : String
  fromMillis : Int
  toMillis : Int

/-- The AWS SDK client, modelled as the three remote calls the program
issues; each returns `Except` mirroring the `Result` of `send().await`. -/
structure ApiClient where
  describeEvents : EventFilter → Except String DescribeEventsResponse
  describeEventDetails : String → Except String EventDetailsResponse
  describeAffectedEntities : String → Except String AffectedEntitiesResponse

/-- Output record (struct `HealthEvent`). -/
structure HealthEvent where
  timestamp : String
  arn : String
  detail : String
  affected_entities : List String

/-- Lines 192-198: collect each entity's `entity_value()` into the list,
skipping entities whose value is absent. -/
def collectEntityValues : List AffectedEntity → List String
  | [] => []
  | e :: rest =>
    match e.entityValue with
    | some v => v :: collectEntityValues rest
    | none => collectEntityValues rest

/-- Lines 200-210: the detail string from the `successful_set` of the
`describe_event_details` response. -/
def computeDetail (details : List EventDetails) : String :=
  match details with
  | [] => "No description available"
  | d0 :: _ =>
    match d0.eventDescription with
    | some desc =>
      match desc.latestDescription with
      | some latest => latest
      | none => "No description available"
    | none => "No description available"

/-- Lines 170-224, one iteration of the event loop: resolve the arn
(`unwrap_or("N/A")`), issue the `describe_event_details` call then the
`describe_affected_entities` call (each with `?`), and assemble the
record. `fmt` is the provider's native datetime formatter
(`aws_smithy` `DateTimeFormat::DateTime`), an external collaborator
modelled as a total function on epoch milliseconds. -/
def processEvent (client : ApiClient) (fmt : Int → String) (event : ApiEvent) :
    Except String HealthEvent := do
  let arn := event.arn.getD "N/A"
  let detailsResp ← client.describeEventDetails arn
  let entitiesResp ← client.describeAffectedEntities arn
  let entity_list := collectEntityValues entitiesResp.entities
  let detail := computeDetail detailsResp.successfulSet
  let timestamp :=
    match event.startTime with
    | some t => fmt t
    | none => "Unknown time"
  pure { timestamp := timestamp, arn := arn, detail := detail,
         affected_entities := entity_list }

/-- The `for event in event_details` loop of `get_health_events`:
each event processed in order, the `?` operator aborting the whole
fetch at the first failure. -/
def fetchLoop (client : ApiClient) (fmt : Int → String) :
    List ApiEvent → Except String (List HealthEvent)
  | [] => .ok []
  | ev :: rest => do
    let he ← processEvent client fmt ev
    let hes ← fetchLoop client fmt rest
    pure (he :: hes)

/-- The filter built at lines 151-165: region string and
`timestamp_millis` bounds of the window. -/
def mkFilter (region : String) (start_time end_time : Int) : EventFilter :=
  { region := region, fromMillis := start_time, toMillis := end_time }

/-- Model of `get_health_events` (lines 140-228). -/
def get_health_events (client : ApiClient) (fmt : Int → String)
    (start_time end_time : Int) (target_region : String) :
    Except String (List HealthEvent) := do
  let resp ← client.describeEvents (mkFilter target_region start_time end_time)
  fetchLoop client fmt resp.events

/-! ### The report emitter (lines 90-121 of `main.rs`) -/

/-- The CSV header record (line 92). -/
def headerRow : List String := ["Timestamp", "ARN", "Detail", "Affected Entities"]

/-- The CSV record written for one event (lines 111-118): the last cell is
the entity list joined with `", "`. -/
def eventRow (e : HealthEvent) : List String :=
  [e.timestamp, e.arn, e.detail, String.intercalate ", " e.affected_entities]

/-- The full sequence of CSV records a normal run writes: the header
first, then one record per fetched event, in order. -/
def csvRecords (events : List HealthEvent) : List (List String) :=
  headerRow :: events.map eventRow

/-! ### The pure data flow of `main` -/

/-- The observable plan of one normal run. -/
structure RunPlan where
  window : Int × Int
  filename : String
  records : List (List String)

/-- Pure skeleton of `main`: `now1` is the clock reading at line 42 (the
window defaults), `now2` the reading at line 83 (the filename);
`defaultRegion` is the environment-resolved region used when `--region`
is absent (its resolution failure panics before this data flow and is
out of scope). Returns the run plan or the propagated fetch error,
together with the warnings emitted while resolving the window. -/
def mainPlan (args : Args) (now1 now2 : Int) (defaultRegion : String)
    (client : ApiClient) (fmt : Int → String) :
    Except String RunPlan × List String :=
  match resolveWindow args now1 with
  | (.error e, ws) => (.error e, ws)
  | (.ok (start_date, end_date), ws) =>
    let target_region := args.region.getD defaultRegion
    let filename := csvFilename now2
    match get_health_events client fmt start_date end_date target_region with
    | .error e => (.error e, ws)
    | .ok events =>
      (.ok { window := (start_date, end_date), filename := filename,
             records := csvRecords events }, ws)

/-! ### Concrete fixtures for witness evaluations -/

/-- A concrete stand-in for the provider's native datetime formatter. -/
def fmtConst : Int → String := fun _ => "ts"

/-- One event as the mocked service of the end-to-end scenario returns it. -/
def evOutage : ApiEvent := { arn := some "arn:1", startTime := some 1704067200000 }

/-- An event with no arn and no start time. -/
def evNoArn : ApiEvent := { arn := none, startTime := none }

/-- A client whose three calls all succeed, returning one event with
description `"Outage"` and two affected entities. -/
def okClient : ApiClient :=
  { describeEvents := fun _ => .ok { events := [evOutage] }
    describeEventDetails := fun _ =>
      .ok { successfulSet := [{ eventDescription := some { latestDescription := some "Outage" } }] }
    describeAffectedEntities := fun _ =>
      .ok { entities := [{ entityValue := some "res-1" }, { entityValue := some "res-2" }] } }

/-- The record `okClient` produces for `evOutage` under `fmtConst`. -/
def heOutage : HealthEvent :=
  { timestamp := "ts", arn := "arn:1", detail := "Outage",
    affected_entities := ["res-1", "res-2"] }

/-- The record `okClient` produces for `evNoArn` under `fmtConst`. -/
def heNoArn : HealthEvent :=
  { timestamp := "Unknown time", arn := "N/A", detail := "Outage",
    affected_entities := ["res-1", "res-2"] }

/-- A client whose detail call fails on the second listed event. -/
def failClient : ApiClient :=
  { describeEvents := fun _ =>
      .ok { events := [evOutage, { arn := some "arn:bad", startTime := none }] }
    describeEventDetails := fun a =>
      if a == "arn:bad" then .error "boom" else okClient.describeEventDetails a
    describeAffectedEntities := fun a => okClient.describeAffectedEntities a }

/-! ## Theorems -/

/-- Helper: `parse_date_string` always returns `Ok`. -/
theorem parse_date_string_ok (s : String) (d : Int) :
    ∃ v w, parse_date_string s d = (Except.ok v, w) := by
  unfold parse_date_string
  cases h : parseYMD s with
  | some v =>
    obtain ⟨y, m, dd⟩ := v
    exact ⟨midnightUtcMs y m dd, [], rfl⟩
  | none => exact ⟨d, [warnMsg s], rfl⟩

/-- C1: a date string given via `--from-utc` or `--to-utc` that parses as
`YYYY-MM-DD` resolves to midnight UTC of that date with no warning; a
string that does not parse resolves to the corresponding default
(start = now − 10 days, end = now) with a warning on diagnostic output,
and in neither case does the run fail. -/
theorem date_bound_resolution (s : String) (reg : Option String) (now : Int) :
    (∀ y m d, parseYMD s = some (y, m, d) →
      resolveWindow ⟨some s, none, reg⟩ now =
        (.ok (midnightUtcMs y m d, now), []) ∧
      resolveWindow ⟨none, some s, reg⟩ now =
        (.ok (now - 10 * msPerDay, midnightUtcMs y m d), [])) ∧
    (parseYMD s = none →
      resolveWindow ⟨some s, none, reg⟩ now =
        (.ok (now - 10 * msPerDay, now), [warnMsg s]) ∧
      resolveWindow ⟨none, some s, reg⟩ now =
        (.ok (now - 10 * msPerDay, now), [warnMsg s])) := by
  constructor
  · intro y m d h
    constructor <;> simp [resolveWindow, parse_date_string, h]
  · intro h
    constructor <;> simp [resolveWindow, parse_date_string, h]

/-- C1 witness: `"2024-01-05"` resolves the start bound to midnight UTC of
2024-01-05 with no warning. -/
theorem date_bound_resolution_witness :
    resolveWindow ⟨some "2024-01-05", none, none⟩ 0 =
      (.ok (1704412800000, 0), []) := by
  have h := ((date_bound_resolution "2024-01-05" none 0).1 2024 1 5 rfl).1
  rw [h]; rfl

/-- C4: with `--from-utc` and `--to-utc` absent, the window is
`(now − 10 days, now)` from a single clock reading, with no warnings;
in particular it is exactly 10 days long. -/
theorem default_window (now : Int) (region : Option String) :
    resolveWindow ⟨none, none, region⟩ now =
      (.ok (now - 10 * msPerDay, now), []) ∧
    now - (now - 10 * msPerDay) = 10 * msPerDay := by
  exact ⟨rfl, by ring⟩

/-- C10: `parse_date_string` returns `Ok` for every input string and every
default, so the `?` operator at its two call sites in `main` never
propagates an error and window resolution always succeeds. -/
theorem parse_date_string_never_fails (s : String) (d : Int)
    (args : Args) (now : Int) :
    (∃ v w, parse_date_string s d = (Except.ok v, w)) ∧
    (∃ b w, resolveWindow args now = (Except.ok b, w)) := by
  refine ⟨parse_date_string_ok s d, ?_⟩
  obtain ⟨f, t, r⟩ := args
  cases f with
  | none =>
    cases t with
    | none => exact ⟨_, _, rfl⟩
    | some ts =>
      obtain ⟨v, w, hv⟩ := parse_date_string_ok ts now
      exact ⟨(now - 10 * msPerDay, v), w, by simp [resolveWindow, hv]⟩
  | some fs =>
    obtain ⟨v1, w1, hv1⟩ := parse_date_string_ok fs (now - 10 * msPerDay)
    cases t with
    | none => exact ⟨(v1, now), w1, by simp [resolveWindow, hv1]⟩
    | some ts =>
      obtain ⟨v2, w2, hv2⟩ := parse_date_string_ok ts now
      exact ⟨(v1, v2), w1 ++ w2, by simp [resolveWindow, hv1, hv2]⟩

/-- C2 counterexample: on 2024-01-05 the run writes
`20240105_aws_health.csv`, not `20240105_health.csv` as the claim's
filename pattern `<YYYYMMDD>_health.csv` requires. -/
theorem csvFilename_counterexample :
    csvFilename 1704412800000 = "20240105_aws_health.csv" ∧
    csvFilename 1704412800000 ≠ "20240105_health.csv" := by
  constructor
  · rfl
  · decide

/-- C2 (amended): the CSV file of a run is named
`<YYYYMMDD>_aws_health.csv`, where `<YYYYMMDD>` is the civil date of the
clock reading taken when the filename is computed — independent of the
arguments and hence of the event window. -/
theorem csvFilename_spec (args : Args) (now1 now2 : Int) (defaultRegion : String)
    (client : ApiClient) (fmt : Int → String) (plan : RunPlan)
    (h : (mainPlan args now1 now2 defaultRegion client fmt).1 = .ok plan) :
    plan.filename =
      formatYYYYMMDD (civilFromDays (Int.fdiv now2 msPerDay)) ++ "_aws_health.csv" := by
  unfold mainPlan at h
  cases hw : resolveWindow args now1 with
  | mk res ws =>
    rw [hw] at h
    cases res with
    | error e => simp at h
    | ok b =>
      obtain ⟨sd, ed⟩ := b
      simp only at h
      cases hg : get_health_events client fmt sd ed (args.region.getD defaultRegion) with
      | error e => rw [hg] at h; simp at h
      | ok events =>
        rw [hg] at h
        simp only [Except.ok.injEq] at h
        rw [← h]
        rfl

/-- C2 witness: a concrete successful run at clock reading 2024-01-05
produces the plan whose filename is `20240105_aws_health.csv`. -/
theorem csvFilename_spec_witness :
    (mainPlan ⟨none, none, none⟩ 0 1704412800000 "us-west-2" okClient fmtConst).1 =
      .ok { window := (-864000000, 0), filename := "20240105_aws_health.csv",
            records := [["Timestamp", "ARN", "Detail", "Affected Entities"],
                        ["ts", "arn:1", "Outage", "res-1, res-2"]] } ∧
    ("20240105_aws_health.csv" : String) =
      formatYYYYMMDD (civilFromDays (Int.fdiv 1704412800000 msPerDay)) ++
        "_aws_health.csv" := by
  refine ⟨rfl, ?_⟩
  exact csvFilename_spec ⟨none, none, none⟩ 0 1704412800000 "us-west-2" okClient
    fmtConst
    { window := (-864000000, 0), filename := "20240105_aws_health.csv",
      records := [["Timestamp", "ARN", "Detail", "Affected Entities"],
                  ["ts", "arn:1", "Outage", "res-1, res-2"]] } rfl

/-- Helper: `>>=` on an `Except.ok`. -/
theorem exceptBind_ok {α β : Type} {ε : Type} (v : α) (f : α → Except ε β) :
    (Except.ok v >>= f) = f v := rfl

/-- Helper: `>>=` on an `Except.error` short-circuits. -/
theorem exceptBind_error {α β : Type} {ε : Type} (e : ε) (f : α → Except ε β) :
    ((Except.error e : Except ε α) >>= f) = Except.error e := rfl

/-- Helper: the event loop propagates the first per-event failure,
discarding the records already assembled. -/
theorem fetchLoop_error_propagates (client : ApiClient) (fmt : Int → String) :
    ∀ (pre : List ApiEvent) (ev : ApiEvent) (post : List ApiEvent) (err : String),
    (∀ p ∈ pre, ∃ v, processEvent client fmt p = .ok v) →
    processEvent client fmt ev = .error err →
    fetchLoop client fmt (pre ++ ev :: post) = .error err := by
  intro pre
  induction pre with
  | nil =>
    intro ev post err _ hev
    simp [fetchLoop, hev, exceptBind_error]
  | cons p ps ih =>
    intro ev post err hpre hev
    obtain ⟨v, hv⟩ := hpre p (by simp)
    have hrest := ih ev post err (fun q hq => hpre q (by simp [hq])) hev
    simp [fetchLoop, hv, hrest, exceptBind_ok, exceptBind_error]

/-- C3: any failure of any of the three remote calls aborts the whole
fetch with that error: a failing list call propagates directly, and a
failure while processing any event (details or entities call) propagates
even when every earlier event processed successfully — no partial list,
no retry, no skip. -/
theorem fetch_aborts_on_failure (client : ApiClient) (fmt : Int → String)
    (s e : Int) (r : String) :
    (∀ err, client.describeEvents (mkFilter r s e) = .error err →
      get_health_events client fmt s e r = .error err) ∧
    (∀ resp pre ev post err,
      client.describeEvents (mkFilter r s e) = .ok resp →
      resp.events = pre ++ ev :: post →
      (∀ p ∈ pre, ∃ v, processEvent client fmt p = .ok v) →
      processEvent client fmt ev = .error err →
      get_health_events client fmt s e r = .error err) := by
  constructor
  · intro err h
    simp [get_health_events, h, exceptBind_error]
  · intro resp pre ev post err hlist hsplit hpre hev
    have hloop := fetchLoop_error_propagates client fmt pre ev post err hpre hev
    simp [get_health_events, hlist, exceptBind_ok, ← hsplit] at hloop ⊢
    exact hloop

/-- C3 witness: with a client whose detail call fails on the second event
while the first event processes fine, the whole fetch returns that error. -/
theorem fetch_aborts_on_failure_witness :
    get_health_events failClient fmtConst 0 1 "us-west-2" = .error "boom" := by
  refine (fetch_aborts_on_failure failClient fmtConst 0 1 "us-west-2").2
    { events := [evOutage, { arn := some "arn:bad", startTime := none }] }
    [evOutage] { arn := some "arn:bad", startTime := none } [] "boom"
    rfl rfl ?_ rfl
  intro p hp
  simp only [List.mem_singleton] at hp
  subst hp
  exact ⟨heOutage, rfl⟩

/-- Helper: a successful event loop returns exactly one record per listed
event, each the successful processing of the event at the same position. -/
theorem fetchLoop_ok_spec (client : ApiClient) (fmt : Int → String) :
    ∀ (evs : List ApiEvent) (l : List HealthEvent),
    fetchLoop client fmt evs = .ok l →
      l.length = evs.length ∧
      ∀ i he, l.get? i = some he →
        ∃ ev, evs.get? i = some ev ∧ processEvent client fmt ev = .ok he := by
  intro evs
  induction evs with
  | nil =>
    intro l h
    simp only [fetchLoop, Except.ok.injEq] at h
    subst h
    exact ⟨rfl, by intro i he h; simp at h⟩
  | cons ev rest ih =>
    intro l h
    cases hp : processEvent client fmt ev with
    | error e => rw [fetchLoop, hp] at h; simp [exceptBind_error] at h
    | ok he0 =>
      rw [fetchLoop, hp] at h
      cases hr : fetchLoop client fmt rest with
      | error e => rw [hr] at h; simp [exceptBind_ok, exceptBind_error] at h
      | ok tl =>
        rw [hr] at h
        simp only [exceptBind_ok] at h
        obtain ⟨htl, hget⟩ := ih tl hr
        have hl : l = he0 :: tl := by
          simpa [pure, Except.pure] using h.symm
        subst hl
        refine ⟨by simp [htl], ?_⟩
        intro i he hi
        cases i with
        | zero =>
          simp only [List.get?] at hi
          obtain rfl : he0 = he := Option.some.inj hi
          exact ⟨ev, rfl, hp⟩
        | succ n =>
          simp only [List.get?] at hi ⊢
          exact hget n he hi

/-- C5: on a normal completion the CSV consists of the header record
first, then exactly one record per event returned by the list call, in
the order the list call returned them; zero events yield a header-only
file. -/
theorem csv_rows_match_events (client : ApiClient) (fmt : Int → String)
    (s e : Int) (r : String) (resp : DescribeEventsResponse)
    (l : List HealthEvent)
    (hlist : client.describeEvents (mkFilter r s e) = .ok resp)
    (hok : get_health_events client fmt s e r = .ok l) :
    (csvRecords l).length = resp.events.length + 1 ∧
    (csvRecords l).get? 0 = some headerRow ∧
    (∀ i, (csvRecords l).get? (i + 1) = (l.get? i).map eventRow) ∧
    (∀ i he, l.get? i = some he →
      ∃ ev, resp.events.get? i = some ev ∧ processEvent client fmt ev = .ok he) ∧
    (resp.events = [] → csvRecords l = [headerRow]) := by
  have hloop : fetchLoop client fmt resp.events = .ok l := by
    rw [get_health_events, hlist] at hok
    simpa [exceptBind_ok] using hok
  obtain ⟨hlen, hget⟩ := fetchLoop_ok_spec client fmt resp.events l hloop
  refine ⟨by simp [csvRecords, hlen], rfl, ?_, hget, ?_⟩
  · intro i
    simp [csvRecords, List.get?_eq_getElem?, List.getElem?_map]
  · intro hnil
    have : l = [] := List.length_eq_zero.mp (by rw [hlen, hnil]; rfl)
    rw [this]
    rfl

/-- C5 witness: the mocked one-event service yields a two-record CSV whose
data record corresponds to the single listed event. -/
theorem csv_rows_match_events_witness :
    (csvRecords [heOutage]).length = 2 ∧
    (∃ ev, ([evOutage] : List ApiEvent).get? 0 = some ev ∧
      processEvent okClient fmtConst ev = .ok heOutage) := by
  have h := csv_rows_match_events okClient fmtConst 0 1 "us-west-2"
    { events := [evOutage] } [heOutage] rfl rfl
  exact ⟨h.1, h.2.2.2.1 0 heOutage rfl⟩

/-- Helper: a successful `processEvent` means both per-event calls
succeeded, and characterizes every field of the produced record. -/
theorem processEvent_ok_spec (client : ApiClient) (fmt : Int → String)
    (ev : ApiEvent) (he : HealthEvent)
    (hok : processEvent client fmt ev = .ok he) :
    ∃ dresp eresp,
      client.describeEventDetails (ev.arn.getD "N/A") = .ok dresp ∧
      client.describeAffectedEntities (ev.arn.getD "N/A") = .ok eresp ∧
      he = { timestamp := match ev.startTime with
                          | some t => fmt t
                          | none => "Unknown time",
             arn := ev.arn.getD "N/A",
             detail := computeDetail dresp.successfulSet,
             affected_entities := collectEntityValues eresp.entities } := by
  rw [processEvent] at hok
  cases hd : client.describeEventDetails (ev.arn.getD "N/A") with
  | error e => rw [hd] at hok; simp [exceptBind_error] at hok
  | ok dresp =>
    rw [hd] at hok
    cases hent : client.describeAffectedEntities (ev.arn.getD "N/A") with
    | error e =>
      rw [hent] at hok; simp [exceptBind_ok, exceptBind_error] at hok
    | ok eresp =>
      rw [hent] at hok
      simp only [exceptBind_ok, pure, Except.pure, Except.ok.injEq] at hok
      exact ⟨dresp, eresp, rfl, rfl, hok.symm⟩

/-- Helper: the entity-collection loop is the `filterMap` of the
`entity_value` field. -/
theorem collectEntityValues_eq_filterMap :
    ∀ (es : List AffectedEntity),
    collectEntityValues es = es.filterMap AffectedEntity.entityValue := by
  intro es
  induction es with
  | nil => rfl
  | cons e rest ih =>
    cases hv : e.entityValue with
    | none => simp [collectEntityValues, hv, List.filterMap_cons, ih]
    | some v => simp [collectEntityValues, hv, List.filterMap_cons, ih]

/-- C6: the detail field of a successfully processed event equals the
latest description of the first entry of the response's successful set,
and is `"No description available"` whenever that set is empty, its first
entry has no description, or the description has no latest text. -/
theorem detail_from_first_successful (client : ApiClient) (fmt : Int → String)
    (ev : ApiEvent) (resp : EventDetailsResponse) (he : HealthEvent)
    (hdet : client.describeEventDetails (ev.arn.getD "N/A") = .ok resp)
    (hok : processEvent client fmt ev = .ok he) :
    he.detail =
      (((resp.successfulSet.head?.bind EventDetails.eventDescription).bind
          EventDescription.latestDescription).getD "No description available") := by
  obtain ⟨dresp, eresp, hd, hent, hrec⟩ := processEvent_ok_spec client fmt ev he hok
  have hdr : dresp = resp := by
    have := hd.symm.trans hdet
    exact Except.ok.inj this
  subst hdr
  rw [hrec]
  cases hs : dresp.successfulSet with
  | nil => rfl
  | cons d0 tl =>
    cases hdesc : d0.eventDescription with
    | none => simp [computeDetail, hdesc, Option.bind]
    | some desc =>
      cases hl : desc.latestDescription with
      | none => simp [computeDetail, hdesc, hl, Option.bind]
      | some latest => simp [computeDetail, hdesc, hl, Option.bind]

/-- C6 witness: with one successful entry carrying latest description
`"Outage"`, the record's detail is `"Outage"`. -/
theorem detail_from_first_successful_witness :
    heOutage.detail = "Outage" := by
  have h := detail_from_first_successful okClient fmtConst evOutage
    { successfulSet := [{ eventDescription := some { latestDescription := some "Outage" } }] }
    heOutage rfl rfl
  exact h

/-- C7: the affected-entities list of a successfully processed event is
the entity values of the response in API order with absent values
skipped, the CSV cell is that list joined with `", "`, and zero entities
yield the empty string. -/
theorem affected_entities_cell (client : ApiClient) (fmt : Int → String)
    (ev : ApiEvent) (resp : AffectedEntitiesResponse) (he : HealthEvent)
    (hent : client.describeAffectedEntities (ev.arn.getD "N/A") = .ok resp)
    (hok : processEvent client fmt ev = .ok he) :
    he.affected_entities = resp.entities.filterMap AffectedEntity.entityValue ∧
    (eventRow he).get? 3 =
      some (String.intercalate ", "
        (resp.entities.filterMap AffectedEntity.entityValue)) ∧
    (resp.entities = [] → (eventRow he).get? 3 = some "") := by
  obtain ⟨dresp, eresp, hd, hent2, hrec⟩ := processEvent_ok_spec client fmt ev he hok
  have her : eresp = resp := Except.ok.inj (hent2.symm.trans hent)
  rw [her] at hrec
  have hents : he.affected_entities =
      resp.entities.filterMap AffectedEntity.entityValue := by
    rw [hrec]
    exact collectEntityValues_eq_filterMap resp.entities
  refine ⟨hents, ?_, ?_⟩
  · simp [eventRow, hents]
  · intro hnil
    simp only [eventRow, hents, hnil, List.filterMap_nil]
    rfl

/-- C7 witness: the two-entity response yields the cell `"res-1, res-2"`. -/
theorem affected_entities_cell_witness :
    heOutage.affected_entities = ["res-1", "res-2"] ∧
    (eventRow heOutage).get? 3 = some "res-1, res-2" := by
  have h := affected_entities_cell okClient fmtConst evOutage
    { entities := [{ entityValue := some "res-1" }, { entityValue := some "res-2" }] }
    heOutage rfl rfl
  exact ⟨h.1, h.2.1⟩

/-- C8: an event listed with no arn produces the record arn `"N/A"`. -/
theorem missing_arn_is_na (client : ApiClient) (fmt : Int → String)
    (ev : ApiEvent) (he : HealthEvent)
    (harn : ev.arn = none)
    (hok : processEvent client fmt ev = .ok he) :
    he.arn = "N/A" := by
  obtain ⟨dresp, eresp, hd, hent, hrec⟩ := processEvent_ok_spec client fmt ev he hok
  rw [hrec]
  simp [harn]

/-- C8 witness: processing the arn-less event yields arn `"N/A"`. -/
theorem missing_arn_is_na_witness : heNoArn.arn = "N/A" :=
  missing_arn_is_na okClient fmtConst evNoArn heNoArn rfl rfl

/-- C9: the timestamp of a successfully processed event is the provider's
native formatting of its start time when present, and the literal
`"Unknown time"` when the start time is absent. -/
theorem timestamp_field (client : ApiClient) (fmt : Int → String)
    (ev : ApiEvent) (he : HealthEvent)
    (hok : processEvent client fmt ev = .ok he) :
    he.timestamp =
      match ev.startTime with
      | some t => fmt t
      | none => "Unknown time" := by
  obtain ⟨dresp, eresp, hd, hent, hrec⟩ := processEvent_ok_spec client fmt ev he hok
  rw [hrec]

/-- C9 witness: the event with a start time formats it (`fmtConst` gives
`"ts"`), and the start-time-less event gets `"Unknown time"`. -/
theorem timestamp_field_witness :
    heOutage.timestamp = "ts" ∧ heNoArn.timestamp = "Unknown time" :=
  ⟨timestamp_field okClient fmtConst evOutage heOutage rfl,
   timestamp_field okClient fmtConst evNoArn heNoArn rfl⟩

end Aws9man
